import Mathlib

/-!
Shallow embedding of the tournament-manager core (Convex backend
`convex/chess.ts`, `convex/matches.ts`, and the client move validator in
`src/components/ChessGame.tsx` plus the bracket generator in
`TournamentMatches.tsx`).  Machine numbers that the JavaScript uses as
integers (timestamps, seconds, row/col indices) are modelled as `Int`;
user ids and record ids as `Nat`.  Fallible mutations return
`Except ChessError DB`.
-/

namespace TournamentManager

/-! ## Move Rules Engine (client `ChessGame.tsx`) -/

inductive PieceType
  | king | queen | rook | bishop | knight | pawn
  deriving DecidableEq, Repr

inductive Color
  | white | black
  deriving DecidableEq, Repr

/-- A board square's occupant.  The TSX `ChessPiece` also carries a
`position` and `hasMoved` field; `isValidMove`/`isPathClear` never read
them, so they are omitted from the embedding. -/
structure ChessPiece where
  type : PieceType
  color : Color
  deriving DecidableEq, Repr

/-- `board[row][col]`, total over `Int` coordinates; squares the concrete
boards leave unassigned (including off-board coordinates) are `none`. -/
def Board := Int → Int → Option ChessPiece

def Pos := Int × Int
  deriving DecidableEq

/-- The per-axis step of the `isPathClear` while loop:
`to > from ? 1 : to < from ? -1 : 0`. -/
def stepDir (a b : Int) : Int :=
  if b > a then 1 else if b < a then -1 else 0

/-- Number of iterations the `isPathClear` loop performs on an axis-aligned
or diagonal move before `(currentRow, currentCol)` reaches `to`. -/
def chebDist (f t : Pos) : Nat :=
  max (t.1 - f.1).natAbs (t.2 - f.2).natAbs

/-- The squares the `isPathClear` while loop visits strictly between
`from` and `to`: `from + k·step` for `k = 1 … chebDist − 1`.  For the
straight/diagonal moves on which `isValidMove` calls it this is exactly
the loop's visit sequence. -/
def pathSquares (f t : Pos) : List Pos :=
  (List.range (chebDist f t - 1)).map
    (fun k => (f.1 + (k + 1) * stepDir f.1 t.1, f.2 + (k + 1) * stepDir f.2 t.2))

/-- `isPathClear` from `ChessGame.tsx`: false iff some square strictly
between `from` and `to` is occupied. -/
def isPathClear (board : Board) (f t : Pos) : Bool :=
  (pathSquares f t).all (fun p => (board p.1 p.2).isNone)

/-- `isValidMove` from `ChessGame.tsx` (the Move Rules Engine).  The mover's
color is implicit in the piece standing on the source square, exactly as in
the TSX code. -/
def isValidMove (board : Board) (f t : Pos) : Bool :=
  match board f.1 f.2 with
  | none => false
  | some piece =>
    let targetPiece := board t.1 t.2
    if targetPiece.map (·.color) = some piece.color then false
    else
      let rowDiff : Nat := (t.1 - f.1).natAbs
      let colDiff : Nat := (t.2 - f.2).natAbs
      match piece.type with
      | .pawn =>
        let direction : Int := if piece.color = .white then -1 else 1
        let startRow : Int := if piece.color = .white then 6 else 1
        if colDiff = 0 then
          if targetPiece.isSome then false
          else if f.1 + direction = t.1 then true
          else if f.1 = startRow ∧ f.1 + 2 * direction = t.1 then true
          else false
        else if colDiff = 1 ∧ f.1 + direction = t.1 then targetPiece.isSome
        else false
      | .rook => ((rowDiff = 0 ∨ colDiff = 0) && isPathClear board f t : Bool)
      | .bishop => ((rowDiff = colDiff : Bool) && isPathClear board f t)
      | .queen => ((rowDiff = 0 ∨ colDiff = 0 ∨ rowDiff = colDiff) && isPathClear board f t : Bool)
      | .knight => ((rowDiff = 2 ∧ colDiff = 1) ∨ (rowDiff = 1 ∧ colDiff = 2) : Bool)
      | .king => (rowDiff ≤ 1 ∧ colDiff ≤ 1 : Bool)

/-- The sliding-geometry test of `isValidMove` for rook/bishop/queen. -/
def slideGeometry (pt : PieceType) (f t : Pos) : Prop :=
  let rowDiff : Nat := (t.1 - f.1).natAbs
  let colDiff : Nat := (t.2 - f.2).natAbs
  match pt with
  | .rook => rowDiff = 0 ∨ colDiff = 0
  | .bishop => rowDiff = colDiff
  | .queen => rowDiff = 0 ∨ colDiff = 0 ∨ rowDiff = colDiff
  | _ => False

instance (pt : PieceType) (f t : Pos) : Decidable (slideGeometry pt f t) := by
  unfold slideGeometry
  cases pt <;> dsimp <;> infer_instance

/-! ## Server data model (Convex schema in `convex/schema.ts`) -/

inductive MatchStatus
  | scheduled | active | completed | cancelled
  deriving DecidableEq, Repr

inductive GameStatus
  | active | checkmate | stalemate | draw | resignation | timeout
  deriving DecidableEq, Repr

/-- A row of the `matches` table (keyed externally by a `Nat` id). -/
structure GameMatch where
  tournamentId : Nat
  round : Int
  matchNumber : Int
  player1Id : Nat
  player2Id : Nat
  status : MatchStatus
  winnerId : Option Nat := none
  startTime : Option Int := none
  endTime : Option Int := none
  score : Option (Int × Int) := none
  gameData : Option String := none
  deriving DecidableEq, Repr

structure TimeControl where
  initialTime : Int
  increment : Int
  deriving DecidableEq, Repr

/-- A row of the `chessGames` table; `id` is its document id (`_id`). -/
structure ChessGameRec where
  id : Nat
  matchId : Nat
  fen : String
  pgn : String
  currentPlayer : Color
  gameStatus : GameStatus
  whitePlayerId : Nat
  blackPlayerId : Nat
  timeControl : TimeControl
  whiteTimeRemaining : Int
  blackTimeRemaining : Int
  lastMoveTime : Option Int := none
  gameData : Option String := none
  deriving DecidableEq, Repr

/-- The fields of a `tournaments` row that the match/chess mutations read. -/
structure Tournament where
  ownerId : Nat
  gameType : String
  deriving DecidableEq, Repr

/-- The slice of the Convex database these mutations touch.  `matchTable` (the `matches` table; `matches` is reserved in Lean) and
`tournaments` are keyed maps; `chessGames` is kept as an insertion-ordered
list because the code queries it through the `by_match` index with
`.first()` and nothing stops two rows from sharing a `matchId`. -/
structure DB where
  matchTable : Nat → Option GameMatch
  chessGames : List ChessGameRec
  tournaments : Nat → Option Tournament
  nextId : Nat

/-- One constructor per `throw new Error(...)` site in
`convex/chess.ts` / `convex/matches.ts` (the authentication check is
factored out: callers of the embedding are already-resolved user ids).
`matchNotFound` also stands for Convex aborting a `ctx.db.patch` on a
missing document. -/
inductive ChessError
  | chessGameNotFound        -- "Chess game not found"
  | notAPlayer               -- "You are not a player in this game"
  | notYourTurn              -- "It's not your turn"
  | gameAlreadyExists        -- "Chess game already exists for this match"
  | matchNotFound            -- "Match not found"
  | notAuthorizedToStart     -- "Not authorized to start this match"
  | onlyOwnersCanEnd         -- "Only tournament owners can end matches"
  deriving DecidableEq, Repr

/-- `ctx.db.query("chessGames").withIndex("by_match", …).first()`. -/
def findSession (db : DB) (matchId : Nat) : Option ChessGameRec :=
  db.chessGames.find? (fun g => g.matchId = matchId)

/-- `ctx.db.patch(id, …)` on the `chessGames` table. -/
def patchGame (games : List ChessGameRec) (id : Nat) (f : ChessGameRec → ChessGameRec) :
    List ChessGameRec :=
  games.map (fun x => if x.id = id then f x else x)

/-- `ctx.db.patch(matchId, …)` on the `matches` table. -/
def patchMatch (ms : Nat → Option GameMatch) (matchId : Nat) (f : GameMatch → GameMatch) :
    Nat → Option GameMatch :=
  fun k => if k = matchId then (ms k).map f else ms k

/-- JavaScript `a || b` for the optional numeric `lastMoveTime` (`0` is
falsy). -/
def jsOr (o : Option Int) (d : Int) : Int :=
  match o with
  | none => d
  | some t => if t = 0 then d else t

/-- `e2`-style square name: `String.fromCharCode(97 + col)` + `8 - row`. -/
def squareName (p : Pos) : String :=
  String.singleton (Char.ofNat (97 + p.2).toNat) ++ toString (8 - p.1)

def startFen : String :=
  "rnbqkbnr/pppppppp/8/8/8/8/PPPPPPPP/RNBQKBNR w KQkq - 0 1"

/-! ## Mutations -/

/-- `initializeChessGame` from `convex/chess.ts` (lines 24–66). -/
def initializeChessGame (db : DB) (_userId matchId whitePlayerId blackPlayerId : Nat)
    (timeControl : TimeControl) (now : Int) : Except ChessError DB :=
  match findSession db matchId with
  | some _ => .error .gameAlreadyExists
  | none =>
    .ok { db with
      chessGames := db.chessGames ++
        [{ id := db.nextId, matchId, fen := startFen, pgn := "",
           currentPlayer := .white, gameStatus := .active,
           whitePlayerId, blackPlayerId, timeControl,
           whiteTimeRemaining := timeControl.initialTime,
           blackTimeRemaining := timeControl.initialTime,
           lastMoveTime := some now }],
      nextId := db.nextId + 1 }

/-- `makeMove` from `convex/chess.ts` (lines 69–145).  The mutation is
transactional, so the final `ctx.db.patch(args.matchId, …)` hitting a
missing match document aborts the whole call (`matchNotFound`). -/
def makeMove (db : DB) (userId matchId : Nat) (f t : Pos) (gameData : String)
    (now : Int) : Except ChessError DB :=
  match findSession db matchId with
  | none => .error .chessGameNotFound
  | some g =>
    if ¬(g.whitePlayerId = userId ∨ g.blackPlayerId = userId) then
      .error .notAPlayer
    else if ¬((g.currentPlayer = .white ∧ g.whitePlayerId = userId) ∨
              (g.currentPlayer = .black ∧ g.blackPlayerId = userId)) then
      .error .notYourTurn
    else
      let newCurrentPlayer : Color := if g.currentPlayer = .white then .black else .white
      let timeSinceLastMove : Int := now - jsOr g.lastMoveTime now
      let elapsed : Int := Int.fdiv timeSinceLastMove 1000
      let newWhiteTime : Int :=
        if g.currentPlayer = .white then
          max 0 (g.whiteTimeRemaining - elapsed + g.timeControl.increment)
        else g.whiteTimeRemaining
      let newBlackTime : Int :=
        if g.currentPlayer = .white then g.blackTimeRemaining
        else max 0 (g.blackTimeRemaining - elapsed + g.timeControl.increment)
      let moveNotation := squareName f ++ squareName t
      let newPgn := if g.pgn = "" then moveNotation else g.pgn ++ " " ++ moveNotation
      match db.matchTable matchId with
      | none => .error .matchNotFound
      | some _ =>
        .ok { db with
          chessGames := patchGame db.chessGames g.id (fun x =>
            { x with currentPlayer := newCurrentPlayer,
                     whiteTimeRemaining := newWhiteTime,
                     blackTimeRemaining := newBlackTime,
                     lastMoveTime := some now, pgn := newPgn,
                     gameData := some gameData }),
          matchTable := patchMatch db.matchTable matchId (fun m =>
            { m with status := .active, gameData := some gameData }) }

/-- `resignGame` from `convex/chess.ts` (lines 212–251). -/
def resignGame (db : DB) (userId matchId : Nat) (now : Int) : Except ChessError DB :=
  match findSession db matchId with
  | none => .error .chessGameNotFound
  | some g =>
    if ¬(g.whitePlayerId = userId ∨ g.blackPlayerId = userId) then
      .error .notAPlayer
    else
      let winnerId : Nat := if g.whitePlayerId = userId then g.blackPlayerId else g.whitePlayerId
      match db.matchTable matchId with
      | none => .error .matchNotFound
      | some _ =>
        .ok { db with
          chessGames := patchGame db.chessGames g.id (fun x =>
            { x with gameStatus := .resignation }),
          matchTable := patchMatch db.matchTable matchId (fun m =>
            { m with status := .completed, winnerId := some winnerId,
                     endTime := some now }) }

/-- `startMatch` from `convex/matches.ts` (lines 104–153).  Note: the code
patches the match to `active` and, for chess tournaments, inserts a fresh
`chessGames` row without checking whether one already exists. -/
def startMatch (db : DB) (userId matchId : Nat) (now : Int) : Except ChessError DB :=
  match db.matchTable matchId with
  | none => .error .matchNotFound
  | some mt =>
    let tournament := db.tournaments mt.tournamentId
    let isOwner := tournament.map (·.ownerId) = some userId
    let isPlayer := mt.player1Id = userId ∨ mt.player2Id = userId
    if ¬(isOwner ∨ isPlayer) then .error .notAuthorizedToStart
    else
      let matchTable' := patchMatch db.matchTable matchId (fun m =>
        { m with status := .active, startTime := some now })
      if tournament.map (·.gameType) = some "chess" then
        .ok { db with
          matchTable := matchTable',
          chessGames := db.chessGames ++
            [{ id := db.nextId, matchId, fen := startFen, pgn := "",
               currentPlayer := .white, gameStatus := .active,
               whitePlayerId := mt.player1Id, blackPlayerId := mt.player2Id,
               timeControl := ⟨600, 5⟩,
               whiteTimeRemaining := 600, blackTimeRemaining := 600,
               lastMoveTime := some now }],
          nextId := db.nextId + 1 }
      else .ok { db with matchTable := matchTable' }

/-- `endMatch` from `convex/matches.ts` (lines 156–191). -/
def endMatch (db : DB) (userId matchId : Nat) (winnerId : Option Nat)
    (score : Option (Int × Int)) (now : Int) : Except ChessError DB :=
  match db.matchTable matchId with
  | none => .error .matchNotFound
  | some mt =>
    match db.tournaments mt.tournamentId with
    | none => .error .onlyOwnersCanEnd
    | some t =>
      if ¬(t.ownerId = userId) then .error .onlyOwnersCanEnd
      else
        .ok { db with
          matchTable := patchMatch db.matchTable matchId (fun m =>
            { m with status := .completed, winnerId := winnerId,
                     endTime := some now, score := score }) }

/-! ## Bracket Generator (client `TournamentMatches.tsx`) -/

structure Participant where
  userId : Nat
  status : String
  deriving DecidableEq, Repr

/-- One `createMatch` call emitted by `generateFirstRound`. -/
structure MatchRequest where
  round : Nat
  matchNumber : Nat
  player1Id : Nat
  player2Id : Nat
  deriving DecidableEq, Repr

/-- The pairing loop `for (let i = 0; i < participants.length - 1; i += 2)`:
pairs element `i` with `i + 1`; a trailing unpaired element is dropped. -/
def pairSeq {α : Type} : List α → List (α × α)
  | a :: b :: rest => (a, b) :: pairSeq rest
  | _ => []

/-- `generateFirstRound` from `TournamentMatches.tsx` (also
`src/unnamed/part_003`), as the list of `createMatch` payloads it emits:
filters to `status === "active"`, pairs sequentially, and numbers the
matches `Math.floor(i / 2) + 1` in pairing order.  (The `< 2` guard in the
code emits no matches, which coincides with the empty pairing.) -/
def generateFirstRound (participants : List Participant) : List MatchRequest :=
  let active := participants.filter (fun p => p.status = "active")
  (pairSeq active).enum.map (fun ke =>
    { round := 1, matchNumber := ke.1 + 1,
      player1Id := ke.2.1.userId, player2Id := ke.2.2.userId })

/-! ## Concrete fixtures used by witnesses and counterexamples -/

/-- A five-participant registration list, all `active`. -/
def bracketDemo : List Participant :=
  [⟨1, "active"⟩, ⟨2, "active"⟩, ⟨3, "active"⟩, ⟨4, "active"⟩, ⟨5, "active"⟩]

/-- A white rook on `(0,0)` with a black pawn in between on `(0,3)`. -/
def rookBoard : Board := fun r c =>
  if r = 0 ∧ c = 0 then some ⟨.rook, .white⟩
  else if r = 0 ∧ c = 3 then some ⟨.pawn, .black⟩
  else none

/-- The `direction` local of the pawn branch of `isValidMove`. -/
def pawnDir (c : Color) : Int := if c = .white then -1 else 1

/-- The `startRow` local of the pawn branch of `isValidMove`. -/
def pawnStartRow (c : Color) : Int := if c = .white then 6 else 1

/-- A white pawn on its start square `(6,4)` with its own knight directly
in front on `(5,4)`; the two-square destination `(4,4)` is empty. -/
def blockedBoard : Board := fun r c =>
  if r = 6 ∧ c = 4 then some ⟨.pawn, .white⟩
  else if r = 5 ∧ c = 4 then some ⟨.knight, .white⟩
  else none

/-- A match record already past its lifetime: status `completed`. -/
def staleMatch : GameMatch :=
  { tournamentId := 7, round := 1, matchNumber := 1,
    player1Id := 10, player2Id := 20, status := .completed }

/-- The chess session of `staleMatch`: ended by `timeout`, white (user 10)
to move with 5 seconds left, last move stamped at 1000 ms. -/
def staleSession : ChessGameRec :=
  { id := 100, matchId := 1, fen := startFen, pgn := "",
    currentPlayer := .white, gameStatus := .timeout,
    whitePlayerId := 10, blackPlayerId := 20,
    timeControl := ⟨600, 5⟩,
    whiteTimeRemaining := 5, blackTimeRemaining := 600,
    lastMoveTime := some 1000 }

/-- A database holding `staleMatch` as match 1, its `staleSession`, and a
chess tournament 7 owned by user 99. -/
def staleDb : DB :=
  { matchTable := fun k => if k = 1 then some staleMatch else none,
    chessGames := [staleSession],
    tournaments := fun k => if k = 7 then some ⟨99, "chess"⟩ else none,
    nextId := 200 }

/-! ## Theorems: bracket generator -/

/-- Indexing the sequential pairing: the `k`-th emitted pair is elements
`2k` and `2k+1` of the input, when both exist. -/
theorem pairSeq_getElem? {α : Type} :
    ∀ (l : List α) (k : Nat),
      (pairSeq l)[k]? =
        (l[2 * k]?).bind (fun a => (l[2 * k + 1]?).map (fun b => (a, b)))
  | [], k => by simp [pairSeq]
  | [a], k => by
    have h : ([a] : List α)[2 * k + 1]? = none := by
      rw [List.getElem?_eq_none]
      simp
    simp [pairSeq, h]
  | a :: b :: rest, 0 => by simp [pairSeq]
  | a :: b :: rest, (k + 1) => by
    have h1 : 2 * (k + 1) = 2 * k + 1 + 1 := by ring
    rw [h1]
    simp [pairSeq, pairSeq_getElem? rest k]

/-- C7: bracket generation pairs index `2k` with `2k+1` of the
active-filtered participant list, in list order, with matchNumber `k+1` in
pairing order (a trailing unpaired participant yields no entry); on the
five-element all-active list `[1,2,3,4,5]` it emits exactly `(1,2)` with
matchNumber 1 and `(3,4)` with matchNumber 2, and participant 5 appears in
no match. -/
theorem generateFirstRound_spec :
    (∀ (ps : List Participant) (k : Nat),
        (generateFirstRound ps)[k]? =
          ((ps.filter (fun p => p.status = "active"))[2 * k]?).bind (fun a =>
            ((ps.filter (fun p => p.status = "active"))[2 * k + 1]?).map (fun b =>
              { round := 1, matchNumber := k + 1,
                player1Id := a.userId, player2Id := b.userId })))
    ∧ generateFirstRound bracketDemo =
        [{ round := 1, matchNumber := 1, player1Id := 1, player2Id := 2 },
         { round := 1, matchNumber := 2, player1Id := 3, player2Id := 4 }]
    ∧ ∀ r ∈ generateFirstRound bracketDemo, r.player1Id ≠ 5 ∧ r.player2Id ≠ 5 := by
  refine ⟨?_, by decide, by decide⟩
  intro ps k
  unfold generateFirstRound
  rw [List.getElem?_map, List.getElem?_enum, pairSeq_getElem?]
  cases (ps.filter (fun p => p.status = "active"))[2 * k]? <;>
    cases (ps.filter (fun p => p.status = "active"))[2 * k + 1]? <;> simp

/-- Closed instance of the indexed pairing statement of
`generateFirstRound_spec`. -/
theorem generateFirstRound_spec_witness :
    (generateFirstRound bracketDemo)[1]? =
      some { round := 1, matchNumber := 2, player1Id := 3, player2Id := 4 } :=
  (generateFirstRound_spec.1 bracketDemo 1).trans (by decide)

/-! ## Theorems: Move Rules Engine -/

/-- C8: for a rook/bishop/queen standing on the source square whose
geometry matches the move, an occupied square strictly between source and
destination makes `isValidMove` return false; with the in-between path
entirely empty, acceptance is decided solely by the same-color-destination
check (never by the path). -/
theorem slide_path_spec (board : Board) (f t : Pos) (piece : ChessPiece)
    (hsrc : board f.1 f.2 = some piece)
    (hty : piece.type = .rook ∨ piece.type = .bishop ∨ piece.type = .queen)
    (hgeom : slideGeometry piece.type f t) :
    ((∃ p ∈ pathSquares f t, (board p.1 p.2).isSome = true) →
        isValidMove board f t = false)
    ∧ ((∀ p ∈ pathSquares f t, board p.1 p.2 = none) →
        isValidMove board f t =
          decide ((board t.1 t.2).map (·.color) ≠ some piece.color)) := by
  obtain ⟨pt, pc⟩ := piece
  simp only at hty hgeom
  constructor
  · rintro ⟨p, hp, hocc⟩
    have hclear : isPathClear board f t = false := by
      simp only [isPathClear, List.all_eq_false]
      obtain ⟨q, hq⟩ := Option.isSome_iff_exists.mp hocc
      exact ⟨p, hp, by simp [hq]⟩
    unfold isValidMove
    rw [hsrc]
    rcases hty with h | h | h <;> subst h <;> dsimp only <;>
      split <;> simp [hclear]
  · intro hall
    have hclear : isPathClear board f t = true := by
      simp only [isPathClear, List.all_eq_true]
      intro p hp
      simp [hall p hp]
    rcases hty with h | h | h <;> subst h <;>
      simp only [slideGeometry] at hgeom <;>
      · unfold isValidMove
        rw [hsrc]
        dsimp only
        split
        · rename_i hsame
          simp [hsame]
        · rename_i hsame
          simp [hsame, hclear]
          omega

/-- Closed instance of `slide_path_spec`: the rook move `(0,0) → (0,5)`
across the occupied square `(0,3)` is rejected. -/
theorem slide_path_spec_witness :
    isValidMove rookBoard (0, 0) (0, 5) = false :=
  (slide_path_spec rookBoard (0, 0) (0, 5) ⟨.rook, .white⟩ (by decide)
      (Or.inl rfl) (by decide)).1 ⟨(0, 3), by decide, by decide⟩

/-- C9: a pawn's two-square advance is accepted exactly when the pawn is on
its color's start rank and the destination is empty — the intervening
square is never consulted, and on `blockedBoard` the blocked double step is
still accepted; a one-square advance is accepted exactly when the
destination is empty; a one-square diagonal step is accepted exactly when
the destination holds an opposing piece. -/
theorem pawn_move_spec :
    (∀ (board : Board) (f : Pos) (c : Color),
      board f.1 f.2 = some ⟨.pawn, c⟩ →
      (isValidMove board f (f.1 + 2 * pawnDir c, f.2) = true ↔
          (f.1 = pawnStartRow c ∧ board (f.1 + 2 * pawnDir c) f.2 = none))
      ∧ (isValidMove board f (f.1 + pawnDir c, f.2) = true ↔
          board (f.1 + pawnDir c) f.2 = none)
      ∧ (∀ dc : Int, dc.natAbs = 1 →
          (isValidMove board f (f.1 + pawnDir c, f.2 + dc) = true ↔
            ∃ q, board (f.1 + pawnDir c) (f.2 + dc) = some q ∧ q.color ≠ c)))
    ∧ (blockedBoard 5 4).isSome = true
    ∧ isValidMove blockedBoard (6, 4) (4, 4) = true := by
  refine ⟨?_, by decide, by decide⟩
  intro board f c hsrc
  refine ⟨?_, ?_, ?_⟩
  · cases htgt : board (f.1 + 2 * pawnDir c) f.2 with
    | none =>
      unfold isValidMove
      rw [hsrc]
      dsimp only
      rw [htgt]
      cases c <;> simp [pawnDir, pawnStartRow]
    | some q =>
      unfold isValidMove
      rw [hsrc]
      dsimp only
      rw [htgt]
      by_cases hq : q.color = c <;>
        cases c <;> simp [pawnDir, pawnStartRow, hq, htgt]
  · cases htgt : board (f.1 + pawnDir c) f.2 with
    | none =>
      unfold isValidMove
      rw [hsrc]
      dsimp only
      rw [htgt]
      cases c <;> simp [pawnDir, htgt]
    | some q =>
      unfold isValidMove
      rw [hsrc]
      dsimp only
      rw [htgt]
      by_cases hq : q.color = c <;>
        cases c <;> simp [pawnDir, hq, htgt]
  · intro dc hdc
    cases htgt : board (f.1 + pawnDir c) (f.2 + dc) with
    | none =>
      unfold isValidMove
      rw [hsrc]
      dsimp only
      rw [htgt]
      cases c <;> simp [pawnDir, htgt] <;> omega
    | some q =>
      unfold isValidMove
      rw [hsrc]
      dsimp only
      rw [htgt]
      by_cases hq : q.color = c <;>
        cases c <;> simp [pawnDir, hq, htgt, hdc]

/-- Closed instance of `pawn_move_spec`: on `blockedBoard`, the
characterization at the pawn's square confirms the blocked two-square
advance is accepted (start rank reached, destination empty). -/
theorem pawn_move_spec_witness :
    isValidMove blockedBoard (6, 4) (4, 4) = true :=
  ((pawn_move_spec.1 blockedBoard (6, 4) Color.white (by decide)).1).mpr
    (by decide)

/-! ## Theorems: match lifecycle, sessions, and the clock -/

/-- Patching the session found by the `by_match` lookup (with a patch that
does not touch `matchId`) makes the same lookup return the patched row. -/
theorem find?_patchGame (m : Nat) (f : ChessGameRec → ChessGameRec)
    (hpres : ∀ x, (f x).matchId = x.matchId) :
    ∀ (l : List ChessGameRec) (g : ChessGameRec),
      l.find? (fun x => x.matchId = m) = some g →
      (patchGame l g.id f).find? (fun x => x.matchId = m) = some (f g)
  | [], g, h => by simp [List.find?] at h
  | a :: l, g, h => by
    by_cases ha : a.matchId = m
    · rw [List.find?_cons_of_pos _ (by simp [ha])] at h
      obtain rfl : a = g := by simpa using h
      simp only [patchGame, List.map_cons, if_pos rfl]
      rw [List.find?_cons_of_pos _ (by simp [hpres, ha])]
      simp
    · rw [List.find?_cons_of_neg _ (by simp [ha])] at h
      have ih := find?_patchGame m f hpres l g h
      by_cases hid : a.id = g.id
      · show List.find? (fun x => decide (x.matchId = m))
            ((if a.id = g.id then f a else a) :: patchGame l g.id f) = some (f g)
        rw [if_pos hid, List.find?_cons_of_neg _ (by simp [hpres, ha]), ih]
      · show List.find? (fun x => decide (x.matchId = m))
            ((if a.id = g.id then f a else a) :: patchGame l g.id f) = some (f g)
        rw [if_neg hid, List.find?_cons_of_neg _ (by simp [ha]), ih]

/-- C10: a successful `makeMove` always writes `status: "active"` (and the
opaque payload) onto the match record — whatever the match's status was
before the call. -/
theorem makeMove_forces_match_active (db : DB) (userId matchId : Nat)
    (f t : Pos) (gd : String) (now : Int) (db' : DB)
    (h : makeMove db userId matchId f t gd now = .ok db') :
    (db'.matchTable matchId).map (·.status) = some .active
    ∧ (db'.matchTable matchId).map (·.gameData) = some (some gd) := by
  unfold makeMove at h
  cases hfind : findSession db matchId with
  | none => rw [hfind] at h; exact absurd h (by simp)
  | some g =>
    rw [hfind] at h
    dsimp only at h
    split at h
    · exact absurd h (by simp)
    · split at h
      · exact absurd h (by simp)
      · cases hm : db.matchTable matchId with
        | none => rw [hm] at h; exact absurd h (by simp)
        | some mt =>
          rw [hm] at h
          obtain rfl : _ = db' := by simpa using h
          simp [patchMatch, hm]

/-- Closed instance of `makeMove_forces_match_active`: an accepted move on
`staleDb` — whose match is `completed` — leaves the match `active`. -/
theorem makeMove_forces_match_active_witness :
    ((makeMove staleDb 10 1 (6, 4) (4, 4) "payload" 101000).toOption.bind
        (fun db' => (db'.matchTable 1).map (·.status))) = some .active
    ∧ (staleDb.matchTable 1).map (·.status) = some .completed := by
  obtain ⟨db', hok⟩ :
      ∃ db', makeMove staleDb 10 1 (6, 4) (4, 4) "payload" 101000 = .ok db' :=
    ⟨_, rfl⟩
  refine ⟨?_, by decide⟩
  rw [hok]
  exact (makeMove_forces_match_active _ _ _ _ _ _ _ _ hok).1

/-- C1 (counterexample): with match 1 `completed` and its session `timeout`,
white's player submits an arbitrary move `(0,0) → (5,5)` and `makeMove`
accepts it — no `InvalidState` (and no rules-engine `InvalidMove`) failure
exists. -/
theorem makeMove_state_check_counterexample :
    (staleDb.matchTable 1).map (·.status) = some .completed
    ∧ (findSession staleDb 1).map (·.gameStatus) = some .timeout
    ∧ (makeMove staleDb 10 1 (0, 0) (5, 5) "payload" 101000).toOption.isSome = true := by
  decide

/-- C1 (amended): `makeMove` fails with `chessGameNotFound` when no session
exists for the matchId, `notAPlayer` when the caller is neither assigned
player, `notYourTurn` when the caller is a player but `currentPlayer` is
not their color, and `matchNotFound` when the match record is absent; it
checks neither Match.status, nor gameStatus, nor move legality: every call
meeting the session/turn/match-present conditions is accepted. -/
theorem makeMove_error_spec (db : DB) (u m : Nat) (f t : Pos) (gd : String)
    (now : Int) :
    ((∃ db', makeMove db u m f t gd now = .ok db') ↔
      (∃ g, findSession db m = some g
        ∧ ((g.currentPlayer = .white ∧ g.whitePlayerId = u) ∨
           (g.currentPlayer = .black ∧ g.blackPlayerId = u))
        ∧ (db.matchTable m).isSome = true))
    ∧ (findSession db m = none →
        makeMove db u m f t gd now = .error .chessGameNotFound)
    ∧ (∀ g, findSession db m = some g →
        ¬(g.whitePlayerId = u ∨ g.blackPlayerId = u) →
        makeMove db u m f t gd now = .error .notAPlayer)
    ∧ (∀ g, findSession db m = some g →
        (g.whitePlayerId = u ∨ g.blackPlayerId = u) →
        ¬((g.currentPlayer = .white ∧ g.whitePlayerId = u) ∨
          (g.currentPlayer = .black ∧ g.blackPlayerId = u)) →
        makeMove db u m f t gd now = .error .notYourTurn)
    ∧ (∀ g, findSession db m = some g →
        ((g.currentPlayer = .white ∧ g.whitePlayerId = u) ∨
         (g.currentPlayer = .black ∧ g.blackPlayerId = u)) →
        db.matchTable m = none →
        makeMove db u m f t gd now = .error .matchNotFound) := by
  unfold makeMove
  cases hfind : findSession db m with
  | none => simp [hfind]
  | some g =>
    by_cases hpart : g.whitePlayerId = u ∨ g.blackPlayerId = u
    · by_cases hturn : (g.currentPlayer = .white ∧ g.whitePlayerId = u) ∨
          (g.currentPlayer = .black ∧ g.blackPlayerId = u)
      · cases hm : db.matchTable m with
        | none => simp [hfind, hpart, hturn, hm]; tauto
        | some mt => simp [hfind, hpart, hturn, hm]; tauto
      · simp [hfind, hpart, hturn]; tauto
    · have hturn : ¬((g.currentPlayer = .white ∧ g.whitePlayerId = u) ∨
          (g.currentPlayer = .black ∧ g.blackPlayerId = u)) :=
        fun h => hpart (h.elim (fun hc => Or.inl hc.2) (fun hc => Or.inr hc.2))
      simp [hfind, hpart, hturn]

/-- Closed instance of `makeMove_error_spec`: a caller who is not one of
the two players is rejected with `notAPlayer`. -/
theorem makeMove_error_spec_witness :
    makeMove staleDb 55 1 (0, 0) (5, 5) "p" 0 = .error .notAPlayer :=
  (makeMove_error_spec staleDb 55 1 (0, 0) (5, 5) "p" 0).2.2.1 staleSession
    (by decide) (by decide)

/-- C2 (counterexample): match 1 of `staleDb` is already `completed`, yet a
second `endMatch` by the owner succeeds (no `InvalidState`), and an accepted
`makeMove` moves the completed match back to `active`. -/
theorem terminal_status_counterexample :
    (staleDb.matchTable 1).map (·.status) = some .completed
    ∧ (endMatch staleDb 99 1 (some 10) none 5000).toOption.isSome = true
    ∧ ((makeMove staleDb 10 1 (6, 4) (4, 4) "p2" 101000).toOption.bind
        (fun db' => (db'.matchTable 1).map (·.status))) = some .active := by
  decide

/-- C2 (amended): no mutation checks the match's current status: `endMatch`
by the tournament owner always succeeds — a repeated end call re-stamps
`completed`, `winnerId` and `endTime` instead of failing — and `startMatch`
by a player unconditionally sets the status to `active`, so `completed` and
`cancelled` are not terminal. -/
theorem no_terminal_state_spec :
    (∀ (db : DB) (u m : Nat) (w : Option Nat) (s : Option (Int × Int))
        (now : Int) (mt : GameMatch) (tr : Tournament),
        db.matchTable m = some mt → db.tournaments mt.tournamentId = some tr →
        tr.ownerId = u →
        ∃ db', endMatch db u m w s now = .ok db'
          ∧ (db'.matchTable m).map (·.status) = some .completed
          ∧ (db'.matchTable m).map (·.winnerId) = some w
          ∧ (db'.matchTable m).map (·.endTime) = some (some now))
    ∧ (∀ (db : DB) (u m : Nat) (now : Int) (mt : GameMatch),
        db.matchTable m = some mt → (mt.player1Id = u ∨ mt.player2Id = u) →
        ∃ db', startMatch db u m now = .ok db'
          ∧ (db'.matchTable m).map (·.status) = some .active) := by
  constructor
  · intro db u m w s now mt tr hmt htr hown
    simp only [endMatch, hmt, htr]
    rw [if_neg (not_not_intro hown)]
    exact ⟨_, rfl, by simp [patchMatch, hmt], by simp [patchMatch, hmt],
      by simp [patchMatch, hmt]⟩
  · intro db u m now mt hmt hplayer
    have hauth : (db.tournaments mt.tournamentId).map (·.ownerId) = some u ∨
        (mt.player1Id = u ∨ mt.player2Id = u) := Or.inr hplayer
    simp only [startMatch, hmt]
    rw [if_neg (not_not_intro hauth)]
    by_cases hg : (db.tournaments mt.tournamentId).map (·.gameType) = some "chess"
    · rw [if_pos hg]
      exact ⟨_, rfl, by simp [patchMatch, hmt]⟩
    · rw [if_neg hg]
      exact ⟨_, rfl, by simp [patchMatch, hmt]⟩

/-- Closed instance of `no_terminal_state_spec`: ending the already
completed `staleMatch` succeeds and re-stamps it completed. -/
theorem no_terminal_state_spec_witness :
    ((endMatch staleDb 99 1 (some 10) none 5000).toOption.bind
        (fun db' => (db'.matchTable 1).map (·.status))) = some .completed := by
  obtain ⟨db', hok, hst, -, -⟩ := no_terminal_state_spec.1 staleDb 99 1
    (some 10) none 5000 staleMatch ⟨99, "chess"⟩ (by decide) (by decide) rfl
  rw [hok]
  exact hst

/-- C3 (counterexample): `staleDb` already holds one session for match 1,
yet `startMatch` by player 10 succeeds (no `AlreadyExists`) and inserts a
second session for the same matchId. -/
theorem startMatch_duplicate_session_counterexample :
    (staleDb.chessGames.filter (fun g => g.matchId = 1)).length = 1
    ∧ ((startMatch staleDb 10 1 3000).toOption.map
        (fun db' => (db'.chessGames.filter (fun g => g.matchId = 1)).length)) =
      some 2 := by
  decide

/-- C3 (amended): the duplicate-session check lives only in
`initializeChessGame`, which fails with `gameAlreadyExists` (inserting
nothing) when a session exists; `startMatch` performs no such check — an
authorized call on a chess tournament always appends one more session for
the matchId — so at-most-one-session-per-match is not enforced by
`startMatch`. -/
theorem session_uniqueness_spec :
    (∀ (db : DB) (u m w b : Nat) (tc : TimeControl) (now : Int)
        (g : ChessGameRec),
        findSession db m = some g →
        initializeChessGame db u m w b tc now = .error .gameAlreadyExists)
    ∧ (∀ (db : DB) (u m : Nat) (now : Int) (mt : GameMatch),
        db.matchTable m = some mt →
        ((db.tournaments mt.tournamentId).map (·.ownerId) = some u ∨
          (mt.player1Id = u ∨ mt.player2Id = u)) →
        (db.tournaments mt.tournamentId).map (·.gameType) = some "chess" →
        ∃ db', startMatch db u m now = .ok db'
          ∧ (db'.chessGames.filter (fun g => g.matchId = m)).length =
              (db.chessGames.filter (fun g => g.matchId = m)).length + 1) := by
  constructor
  · intro db u m w b tc now g hfind
    simp only [initializeChessGame, hfind]
  · intro db u m now mt hmt hauth hchess
    simp only [startMatch, hmt]
    rw [if_neg (not_not_intro hauth), if_pos hchess]
    refine ⟨_, rfl, ?_⟩
    simp [List.filter_append]

/-- Closed instance of `session_uniqueness_spec`: duplicate
`initializeChessGame` on match 1 of `staleDb` is rejected. -/
theorem session_uniqueness_spec_witness :
    initializeChessGame staleDb 99 1 10 20 ⟨600, 5⟩ 0 =
      .error .gameAlreadyExists :=
  session_uniqueness_spec.1 staleDb 99 1 10 20 ⟨600, 5⟩ 0 staleSession
    (by decide)

/-- C4 (counterexample): white has 5 s left, 100 s elapse, increment 5.
The code computes `max(0, 5 − 100 + 5) = 0`, while the claimed formula
`max(0, 5 − 100) + 5 = 5`; the accepted move records 0, not 5. -/
theorem clock_formula_counterexample :
    ((makeMove staleDb 10 1 (6, 4) (4, 4) "p4" 101000).toOption.bind
        (fun db' => (findSession db' 1).map (·.whiteTimeRemaining))) = some 0
    ∧ max 0 ((5 : Int) - 100) + 5 = 5
    ∧ (0 : Int) ≠ 5 := by
  decide

/-- C4 (amended): for every accepted move by color C the code sets
`remaining[C] := max(0, remaining[C] − elapsedSeconds + incrementSeconds)`
— the increment is applied inside the `max`, not after it — with
`elapsedSeconds = floor((now − lastMoveTimestamp)/1000)` not clamped below
zero (a falsy `lastMoveTimestamp` is replaced by `now`); the opponent's
remaining time is unchanged by the call. -/
theorem clock_update_spec (db : DB) (u m : Nat) (f t : Pos) (gd : String)
    (now : Int) (g : ChessGameRec) (mt : GameMatch)
    (hfind : findSession db m = some g) (hmt : db.matchTable m = some mt)
    (hturn : (g.currentPlayer = .white ∧ g.whitePlayerId = u) ∨
             (g.currentPlayer = .black ∧ g.blackPlayerId = u)) :
    ∃ db', makeMove db u m f t gd now = .ok db'
      ∧ (findSession db' m).map (·.whiteTimeRemaining) =
          some (if g.currentPlayer = .white then
              max 0 (g.whiteTimeRemaining -
                Int.fdiv (now - jsOr g.lastMoveTime now) 1000 +
                g.timeControl.increment)
            else g.whiteTimeRemaining)
      ∧ (findSession db' m).map (·.blackTimeRemaining) =
          some (if g.currentPlayer = .white then g.blackTimeRemaining
            else max 0 (g.blackTimeRemaining -
              Int.fdiv (now - jsOr g.lastMoveTime now) 1000 +
              g.timeControl.increment)) := by
  have hpart : g.whitePlayerId = u ∨ g.blackPlayerId = u :=
    hturn.elim (fun h => Or.inl h.2) (fun h => Or.inr h.2)
  have hfind' : db.chessGames.find? (fun x => decide (x.matchId = m)) = some g :=
    hfind
  simp only [makeMove, hfind]
  rw [if_neg (not_not_intro hpart), if_neg (not_not_intro hturn), hmt]
  refine ⟨_, rfl, ?_, ?_⟩
  · simp only [findSession]
    refine (congrArg (Option.map (fun x => x.whiteTimeRemaining))
      (find?_patchGame m _ ?_ db.chessGames g hfind')).trans rfl
    intro x
    rfl
  · simp only [findSession]
    refine (congrArg (Option.map (fun x => x.blackTimeRemaining))
      (find?_patchGame m _ ?_ db.chessGames g hfind')).trans rfl
    intro x
    rfl

/-- Closed instance of `clock_update_spec` on `staleDb`: the opponent's
(black's) clock is untouched by white's accepted move. -/
theorem clock_update_spec_witness :
    ((makeMove staleDb 10 1 (6, 4) (4, 4) "p4w" 101000).toOption.bind
        (fun db' => (findSession db' 1).map (·.blackTimeRemaining))) =
      some 600 := by
  obtain ⟨db', hok, -, hb⟩ := clock_update_spec staleDb 10 1 (6, 4) (4, 4)
    "p4w" 101000 staleSession staleMatch (by decide) (by decide) (by decide)
  rw [hok]
  exact hb.trans (by decide)

/-- C5 (counterexample): `endMatch` records the caller-supplied winnerId
unchecked: the owner ends match 1 (players 10 and 20) naming user 999 as
winner, and 999 is stored although it is neither player. -/
theorem winner_membership_counterexample :
    (staleDb.matchTable 1).map (·.player1Id) = some 10
    ∧ (staleDb.matchTable 1).map (·.player2Id) = some 20
    ∧ ((endMatch staleDb 99 1 (some 999) none 5000).toOption.bind
        (fun db' => (db'.matchTable 1).map (·.winnerId))) = some (some 999)
    ∧ (999 ≠ 10 ∧ 999 ≠ 20) := by
  decide

/-- C5 (amended): `resignGame` sets winnerId to one of the session's two
player ids (the non-resigning one), but `endMatch` stores whatever winnerId
the owner supplies without checking it against player1Id/player2Id, so the
winnerId-is-a-player invariant is not preserved by every operation that
sets winnerId. -/
theorem winner_assignment_spec :
    (∀ (db : DB) (u m : Nat) (now : Int) (g : ChessGameRec) (mt : GameMatch),
        findSession db m = some g → db.matchTable m = some mt →
        (g.whitePlayerId = u ∨ g.blackPlayerId = u) →
        ∃ db', resignGame db u m now = .ok db'
          ∧ (db'.matchTable m).map (·.winnerId) =
              some (some (if g.whitePlayerId = u then g.blackPlayerId
                else g.whitePlayerId)))
    ∧ (∀ (db : DB) (u m : Nat) (w : Option Nat) (s : Option (Int × Int))
        (now : Int) (mt : GameMatch) (tr : Tournament),
        db.matchTable m = some mt → db.tournaments mt.tournamentId = some tr →
        tr.ownerId = u →
        ∃ db', endMatch db u m w s now = .ok db'
          ∧ (db'.matchTable m).map (·.winnerId) = some w) := by
  constructor
  · intro db u m now g mt hfind hmt hpart
    simp only [resignGame, hfind]
    rw [if_neg (not_not_intro hpart), hmt]
    exact ⟨_, rfl, by simp [patchMatch, hmt]⟩
  · intro db u m w s now mt tr hmt htr hown
    simp only [endMatch, hmt, htr]
    rw [if_neg (not_not_intro hown)]
    exact ⟨_, rfl, by simp [patchMatch, hmt]⟩

/-- Closed instance of `winner_assignment_spec`: white (user 10) resigns
match 1 and the stored winner is black (user 20). -/
theorem winner_assignment_spec_witness :
    ((resignGame staleDb 10 1 5000).toOption.bind
        (fun db' => (db'.matchTable 1).map (·.winnerId))) = some (some 20) := by
  obtain ⟨db', hok, hw⟩ := winner_assignment_spec.1 staleDb 10 1 5000
    staleSession staleMatch (by decide) (by decide) (by decide)
  rw [hok]
  exact hw.trans (by decide)

/-- C6: when one of the two (distinct) players resigns, the session's
gameStatus becomes `resignation`, the match becomes `completed` with
`endTime = now`, and winnerId is set to the other player — never the
resigner. -/
theorem resign_spec (db : DB) (u m : Nat) (now : Int) (g : ChessGameRec)
    (mt : GameMatch) (hfind : findSession db m = some g)
    (hmt : db.matchTable m = some mt)
    (hpart : g.whitePlayerId = u ∨ g.blackPlayerId = u)
    (hdistinct : g.whitePlayerId ≠ g.blackPlayerId) :
    ∃ db' w, resignGame db u m now = .ok db'
      ∧ (findSession db' m).map (·.gameStatus) = some .resignation
      ∧ (db'.matchTable m).map (·.status) = some .completed
      ∧ (db'.matchTable m).map (·.endTime) = some (some now)
      ∧ (db'.matchTable m).map (·.winnerId) = some (some w)
      ∧ w ≠ u
      ∧ (u = g.whitePlayerId → w = g.blackPlayerId)
      ∧ (u = g.blackPlayerId → w = g.whitePlayerId) := by
  have hfind' : db.chessGames.find? (fun x => decide (x.matchId = m)) = some g :=
    hfind
  simp only [resignGame, hfind]
  rw [if_neg (not_not_intro hpart), hmt]
  refine ⟨_, if g.whitePlayerId = u then g.blackPlayerId else g.whitePlayerId,
    rfl, ?_, ?_, ?_, ?_, ?_, ?_, ?_⟩
  · simp only [findSession]
    refine (congrArg (Option.map (fun x => x.gameStatus))
      (find?_patchGame m _ ?_ db.chessGames g hfind')).trans rfl
    intro x
    rfl
  · simp [patchMatch, hmt]
  · simp [patchMatch, hmt]
  · simp [patchMatch, hmt]
  · by_cases hw : g.whitePlayerId = u
    · rw [if_pos hw]
      exact fun hc => hdistinct (hw.trans hc.symm)
    · rw [if_neg hw]
      exact hw
  · intro hu
    rw [if_pos hu.symm]
  · intro hu
    have hw : ¬(g.whitePlayerId = u) := fun hc => hdistinct (hc.trans hu)
    rw [if_neg hw]

/-- Closed instance of `resign_spec`: black (user 20) resigns match 1 and
the session is marked `resignation`. -/
theorem resign_spec_witness :
    ((resignGame staleDb 20 1 4000).toOption.bind
        (fun db' => (findSession db' 1).map (·.gameStatus))) =
      some .resignation := by
  obtain ⟨db', w, hok, hgs, -, -, -, -, -, -⟩ := resign_spec staleDb 20 1 4000
    staleSession staleMatch (by decide) (by decide) (by decide) (by decide)
  rw [hok]
  exact hgs

end TournamentManager
